import Mathlib

/-!
Verification of the persistent-storage subsystem of the `private-journal`
repository: the at-rest envelope codec (`server/encryption.ts`, the module
imported as `../encryption.js`), the export envelope codec
(`server/csv-encryption.ts`), the schema-lifecycle manager
(`server/database.ts`), and the session-persistence adapter
(`server/session-store.ts`).

Modelling conventions:
* JavaScript strings are modelled as lists of their UTF-16 code units,
  `JStr := List Nat` (`':'` is 58, `'='` is 61, and so on); byte buffers are
  `List Nat` with each element `< 256`.
* Node's `aes-256-gcm` cipher (together with the utf8 encode/decode the
  `cipher.update(text, 'utf8', ...)` calls fold in) is abstracted as an
  `AEAD` structure: `enc key iv msg = (ciphertext, authTag)` and
  `dec key iv ciphertext authTag`, with its correctness
  (`dec` inverts `enc`) taken as the hypothesis `AEAD.Correct`.
  The claims proved here are about the envelope serialization, parsing and
  error handling that the repository builds around the cipher, for every
  cipher satisfying that contract.
* `scrypt` is abstracted as a deterministic function
  `kdf : password → salt → key`, which is all the code relies on.
* Randomness (`randomBytes(16)` for salts and IVs) is passed in explicitly
  as an argument, as is the current time (`Date.now()`).
* Thrown JS exceptions are modelled with `Except String`, carrying the
  thrown error message; a `try`/`catch` that replaces the error is modelled
  by mapping over the `.error` case.
-/

set_option autoImplicit false
set_option maxRecDepth 100000

namespace JournalCrypto

/-- JavaScript strings, as lists of UTF-16 code units. -/
abbrev JStr := List Nat

/-- Interpret a Lean string literal as a `JStr` (its code units). -/
def jstr (s : String) : JStr := s.toList.map Char.toNat

/-- Abstract authenticated cipher: `enc key iv msg = (ciphertext, authTag)`,
`dec key iv ciphertext authTag` recovers the message or fails.  This stands
for Node's `aes-256-gcm` `createCipheriv`/`createDecipheriv` pipeline
(including the utf8 conversion folded into `cipher.update`). -/
structure AEAD where
  enc : List Nat → List Nat → JStr → List Nat × List Nat
  dec : List Nat → List Nat → List Nat → List Nat → Option JStr

/-- The decryption direction inverts the encryption direction — the
correctness contract of the underlying authenticated cipher. -/
def AEAD.Correct (A : AEAD) : Prop :=
  ∀ k iv m, A.dec k iv (A.enc k iv m).1 (A.enc k iv m).2 = some m

/-! Hex encoding, as produced by `Buffer.toString('hex')` (lowercase) and
consumed by `Buffer.from(s, 'hex')` (case-insensitive, stops at the first
invalid pair, drops a trailing odd digit). -/

/-- Code unit of the lowercase hex digit for `n < 16`
(`Buffer.toString('hex')` emits lowercase). -/
def hexChar (n : Nat) : Nat := if n < 10 then 48 + n else 97 + (n - 10)

/-- Hex encoding of a byte buffer, two lowercase digits per byte
(`Buffer.toString('hex')`). -/
def bytesToHex : List Nat → JStr
  | [] => []
  | b :: bs => hexChar (b / 16) :: hexChar (b % 16) :: bytesToHex bs

/-- Value of one hex digit code unit; `Buffer.from(·, 'hex')` accepts both
cases. -/
def hexVal (c : Nat) : Option Nat :=
  if 48 ≤ c ∧ c ≤ 57 then some (c - 48)
  else if 97 ≤ c ∧ c ≤ 102 then some (c - 97 + 10)
  else if 65 ≤ c ∧ c ≤ 70 then some (c - 65 + 10)
  else none

/-- Node's lenient `Buffer.from(s, 'hex')`: decodes digit pairs, stops at the
first invalid pair, drops a trailing lone digit.  Never throws. -/
def bufferFromHex : JStr → List Nat
  | c1 :: c2 :: rest =>
    match hexVal c1, hexVal c2 with
    | some h, some l => (h * 16 + l) :: bufferFromHex rest
    | _, _ => []
  | _ => []

/-! Base64 encoding, as produced by `cipher.update(·, ..., 'base64')` /
`Buffer.toString('base64')` (standard alphabet, `=` padding). -/

/-- Code unit of the base64 alphabet character for `n < 64`. -/
def b64Char (n : Nat) : Nat :=
  if n < 26 then 65 + n
  else if n < 52 then 97 + (n - 26)
  else if n < 62 then 48 + (n - 52)
  else if n = 62 then 43
  else 47

/-- Value of one base64 alphabet code unit. -/
def b64Val (c : Nat) : Option Nat :=
  if 65 ≤ c ∧ c ≤ 90 then some (c - 65)
  else if 97 ≤ c ∧ c ≤ 122 then some (c - 97 + 26)
  else if 48 ≤ c ∧ c ≤ 57 then some (c - 48 + 52)
  else if c = 43 then some 62
  else if c = 47 then some 63
  else none

/-- Standard base64 encoding of a byte buffer with `=` padding
(`Buffer.toString('base64')`). -/
def encodeB64 : List Nat → JStr
  | [] => []
  | [b1] => [b64Char (b1 / 4), b64Char (b1 % 4 * 16), 61, 61]
  | [b1, b2] => [b64Char (b1 / 4), b64Char (b1 % 4 * 16 + b2 / 16), b64Char (b2 % 16 * 4), 61]
  | b1 :: b2 :: b3 :: rest =>
    b64Char (b1 / 4) :: b64Char (b1 % 4 * 16 + b2 / 16)
      :: b64Char (b2 % 16 * 4 + b3 / 64) :: b64Char (b3 % 64) :: encodeB64 rest

/-- Base64 decoding (`Buffer.from(s, 'base64')`), sufficient for every
string `encodeB64` produces; like Node it never throws, yielding a
truncated buffer on malformed input. -/
def decodeB64 : JStr → List Nat
  | c1 :: c2 :: c3 :: c4 :: rest =>
    match b64Val c1, b64Val c2 with
    | some v1, some v2 =>
      let b1 := v1 * 4 + v2 / 16
      if c3 = 61 then [b1]
      else
        match b64Val c3 with
        | some v3 =>
          let b2 := v2 % 16 * 16 + v3 / 4
          if c4 = 61 then [b1, b2]
          else
            match b64Val c4 with
            | some v4 => b1 :: b2 :: (v3 % 4 * 64 + v4) :: decodeB64 rest
            | none => [b1, b2]
        | none => [b1]
    | _, _ => []
  | _ => []

/-- JavaScript `String.prototype.split` with a single-character separator:
`"".split(c) = [""]`, empty tokens are kept. -/
def jsSplit (sep : Nat) : JStr → List JStr
  | [] => [[]]
  | c :: rest =>
    match jsSplit sep rest with
    | [] => [[]]
    | t :: ts => if c = sep then [] :: t :: ts else (c :: t) :: ts

/-- JavaScript `String.prototype.startsWith` on code-unit lists. -/
def hasPrefixB : JStr → JStr → Bool
  | [], _ => true
  | _ :: _, [] => false
  | p :: ps, c :: cs => p == c && hasPrefixB ps cs

/-! The at-rest envelope codec (`server/encryption.ts`). -/

/-- The static salt of the at-rest codec
(`const salt = 'journal-app-salt'` in `getDerivedKey`). -/
def journalAppSalt : JStr := jstr "journal-app-salt"

/-- `getDerivedKey()`: derives the 32-byte key by
`scrypt(ENCRYPTION_KEY, 'journal-app-salt', 32)`.  `kdf` abstracts `scrypt`,
`passphrase` is the configured `ENCRYPTION_KEY`.  Note the source performs
this derivation on every call; there is no cache. -/
def getDerivedKey (kdf : JStr → JStr → List Nat) (passphrase : JStr) : List Nat :=
  kdf passphrase journalAppSalt

/-- Body of `encrypt` after the key is in hand: fresh `iv`, cipher, and the
`iv:authTag:encryptedData` hex envelope. -/
def encryptWithKey (A : AEAD) (key iv : List Nat) (text : JStr) : JStr :=
  let p := A.enc key iv text
  bytesToHex iv ++ 58 :: bytesToHex p.2 ++ 58 :: bytesToHex p.1

/-- `encrypt(text)` of `server/encryption.ts`: returns `''` for empty input,
otherwise derives the key and serializes `hex(iv):hex(authTag):hex(cipher)`.
The 16 random bytes of `randomBytes(16)` enter as `iv`. -/
def encrypt (A : AEAD) (kdf : JStr → JStr → List Nat) (passphrase : JStr)
    (iv : List Nat) (text : JStr) : JStr :=
  if text = [] then []
  else encryptWithKey A (getDerivedKey kdf passphrase) iv text

/-- Body of `decrypt` after the key is in hand: split on `':'`, require
exactly three tokens, hex-decode, decipher.  Every failure is thrown as the
single message of the surrounding `catch` (`'Failed to decrypt data'`). -/
def decryptWithKey (A : AEAD) (key : List Nat) (data : JStr) : Except String JStr :=
  match jsSplit 58 data with
  | [ivHex, authTagHex, encrypted] =>
    match A.dec key (bufferFromHex ivHex) (bufferFromHex encrypted) (bufferFromHex authTagHex) with
    | some m => Except.ok m
    | none => Except.error "Failed to decrypt data"
  | _ => Except.error "Failed to decrypt data"

/-- `decrypt(encryptedData)` of `server/encryption.ts`: returns `''` for
empty input, otherwise derives the key and parses/deciphers the envelope. -/
def decrypt (A : AEAD) (kdf : JStr → JStr → List Nat) (passphrase : JStr)
    (data : JStr) : Except String JStr :=
  if data = [] then Except.ok []
  else decryptWithKey A (getDerivedKey kdf passphrase) data

/-- One code unit of a lowercase hex digit, as tested by the
`/^[0-9a-f]+$/` regex of `isEncrypted`. -/
def isLowerHexDigit (c : Nat) : Bool :=
  decide (48 ≤ c ∧ c ≤ 57) || decide (97 ≤ c ∧ c ≤ 102)

/-- `isEncrypted(data)` of `server/encryption.ts`: false on empty input,
otherwise true iff the string splits on `':'` into exactly 3 tokens each
matching `/^[0-9a-f]+$/`. -/
def isEncrypted (data : JStr) : Bool :=
  if data = [] then false
  else
    let parts := jsSplit 58 data
    parts.length == 3 && parts.all fun p => !(p.isEmpty) && p.all isLowerHexDigit

/-- `safeDecrypt(content)` of `server/routes/entries.ts`: empty input maps
to `''`; an `isEncrypted` envelope is decrypted with failures falling back
to the raw value; anything else is legacy plaintext returned as-is.  Total
(never throws): the inner `try`/`catch` is the `.error` fallback arm. -/
def safeDecrypt (A : AEAD) (kdf : JStr → JStr → List Nat) (passphrase : JStr)
    (content : JStr) : JStr :=
  if content = [] then []
  else if isEncrypted content then
    match decrypt A kdf passphrase content with
    | Except.ok m => m
    | Except.error _ => content
  else content

/-! Instrumented variants that also count how many `scrypt` invocations the
call performs, used to settle the caching claim about the derived key.  The
count mirrors the source line by line: `getDerivedKey` performs exactly one
`scryptAsync` call each time it runs, and `encrypt`/`decrypt` each call
`getDerivedKey` once on every non-empty input (there is no module-level
cache in `server/encryption.ts`). -/

/-- `getDerivedKey` with its `scrypt` invocation count (always exactly 1 per
call: the body is a single `scryptAsync(ENCRYPTION_KEY, salt, 32)`). -/
def getDerivedKeyTr (kdf : JStr → JStr → List Nat) (passphrase : JStr) :
    List Nat × Nat :=
  (kdf passphrase journalAppSalt, 1)

/-- `encrypt` with the number of `scrypt` invocations it triggers. -/
def encryptTr (A : AEAD) (kdf : JStr → JStr → List Nat) (passphrase : JStr)
    (iv : List Nat) (text : JStr) : JStr × Nat :=
  if text = [] then ([], 0)
  else
    let k := getDerivedKeyTr kdf passphrase
    (encryptWithKey A k.1 iv text, k.2)

/-- `decrypt` with the number of `scrypt` invocations it triggers (the
source derives the key before parsing the envelope). -/
def decryptTr (A : AEAD) (kdf : JStr → JStr → List Nat) (passphrase : JStr)
    (data : JStr) : Except String JStr × Nat :=
  if data = [] then (Except.ok [], 0)
  else
    let k := getDerivedKeyTr kdf passphrase
    (decryptWithKey A k.1 data, k.2)

/-! The export envelope codec (`server/csv-encryption.ts`). -/

/-- `encryptCSV(csvContent, password)`: fresh random `salt` and `iv`
(both `randomBytes(16)`, passed in explicitly here), key derived from
`(password, salt)`, envelope
`ENCRYPTED:aes-256-gcm:<saltB64>:<ivB64>:<authTagB64>:<dataB64>`. -/
def encryptCSV (A : AEAD) (kdf : JStr → JStr → List Nat)
    (csvContent password : JStr) (salt iv : List Nat) : JStr :=
  let key := kdf password salt
  let p := A.enc key iv csvContent
  jstr "ENCRYPTED:aes-256-gcm:" ++ encodeB64 salt ++ 58 :: encodeB64 iv
    ++ 58 :: encodeB64 p.2 ++ 58 :: encodeB64 p.1

/-- The `try` body of `decryptCSV`: the two format checks throw their own
distinct messages, decryption failure throws the cipher's message; the
messages are exactly what reaches this function's `catch`. -/
def decryptCSVBody (A : AEAD) (kdf : JStr → JStr → List Nat)
    (encryptedContent password : JStr) : Except String JStr :=
  if hasPrefixB (jstr "ENCRYPTED:") encryptedContent = false then
    Except.error "Content is not encrypted"
  else
    let parts := jsSplit 58 encryptedContent
    if parts.length ≠ 6 ∨ parts.getD 1 [] ≠ jstr "aes-256-gcm" then
      Except.error "Invalid encrypted format"
    else
      let salt := decodeB64 (parts.getD 2 [])
      let iv := decodeB64 (parts.getD 3 [])
      let authTag := decodeB64 (parts.getD 4 [])
      let encrypted := decodeB64 (parts.getD 5 [])
      let key := kdf password salt
      match A.dec key iv encrypted authTag with
      | some m => Except.ok m
      | none => Except.error "Unsupported state or unable to authenticate data"

/-- `decryptCSV(encryptedContent, password)`: the surrounding `catch`
replaces every thrown error — the format errors included — with the single
generic message
`'Failed to decrypt CSV - incorrect password or corrupted file'`. -/
def decryptCSV (A : AEAD) (kdf : JStr → JStr → List Nat)
    (encryptedContent password : JStr) : Except String JStr :=
  match decryptCSVBody A kdf encryptedContent password with
  | Except.ok m => Except.ok m
  | Except.error _ =>
    Except.error "Failed to decrypt CSV - incorrect password or corrupted file"

/-! A small concrete cipher satisfying `AEAD.Correct`, used to evaluate the
theorems at concrete inputs.  The "ciphertext" is the message itself and the
tag is a simple key/iv checksum — enough to make decryption genuinely fail
under a wrong key. -/

/-- Concrete `AEAD` instance for witnesses: identity ciphertext plus a
one-byte key/iv checksum tag. -/
def toyAEAD : AEAD where
  enc := fun k iv m => (m, [(k.sum + iv.sum) % 256])
  dec := fun k iv c tag =>
    if tag = [(k.sum + iv.sum) % 256] then some c else none

/-- Concrete deterministic key-derivation function for witnesses. -/
def toyKdf (password salt : JStr) : List Nat := password ++ salt

end JournalCrypto

namespace JournalDb

/-!
Model of the `diary_entries` constraint-removal migration inside
`initializeDatabase` (`server/database.ts`, lines 145–249).  The persistent
state is the SQLite metadata the code actually consults: for each table, its
`sqlite_master` `sql` text, the `sqlite_master` index rows attached to it
(`name`, nullable `sql`), and its rows.

SQLite facts encoded in the model (both standard, documented SQLite
behaviour):
* a `PRIMARY KEY` on a non-`INTEGER` column (here `id TEXT PRIMARY KEY`) is
  implemented by an automatic unique index that appears in `sqlite_master`
  as `sqlite_autoindex_<table>_1` with a NULL `sql`; a table-level `UNIQUE`
  constraint adds a further `sqlite_autoindex_<table>_2` row;
* `ALTER TABLE ... RENAME TO ...` rewrites the stored `sql` and renames the
  automatic indexes to match the new table name.
-/

/-- One row of `diary_entries`. -/
structure DiaryRow where
  id : String
  user_id : String
  date : String
  content : String
  mood : Option String
  created_at : String
  updated_at : String
deriving DecidableEq

/-- One `sqlite_master` index row (`name`, nullable `sql`; automatic indexes
have a NULL `sql`). -/
structure IndexInfo where
  name : String
  sql : Option String
deriving DecidableEq

/-- A table as the migration code observes it: its `sqlite_master` `sql`
text, its index rows, and its data rows. -/
structure TableInfo where
  sql : String
  indexes : List IndexInfo
  rows : List DiaryRow
deriving DecidableEq

/-- The slice of database state the migration touches: the `diary_entries`
table and the `diary_entries_new` shadow table (absent = `none`). -/
structure MigDb where
  diary : Option TableInfo
  diaryNew : Option TableInfo
deriving DecidableEq

/-- List-prefix test on characters (JS `String.prototype.startsWith`). -/
def charsHavePrefix : List Char → List Char → Bool
  | [], _ => true
  | _ :: _, [] => false
  | p :: ps, c :: cs => p == c && charsHavePrefix ps cs

/-- JS `String.prototype.includes`: substring occurrence test. -/
def charsContain (pat : List Char) : List Char → Bool
  | [] => pat.isEmpty
  | c :: cs => charsHavePrefix pat (c :: cs) || charsContain pat cs

/-- `s.includes(pat)` on Lean strings. -/
def strContains (s pat : String) : Bool := charsContain pat.toList s.toList

/-- `s.startsWith(pat)` on Lean strings. -/
def strStarts (s pat : String) : Bool := charsHavePrefix pat.toList s.toList

/-- The `sqlite_master` `sql` text of a legacy `diary_entries` table created
by the pre-migration schema (second, older `database.ts` DDL), carrying the
`UNIQUE(user_id, date)` constraint. -/
def legacyDiarySql : String :=
  "CREATE TABLE diary_entries ( id TEXT PRIMARY KEY, user_id TEXT NOT NULL, date TEXT NOT NULL, content TEXT NOT NULL, created_at TEXT NOT NULL DEFAULT CURRENT_TIMESTAMP, updated_at TEXT NOT NULL DEFAULT CURRENT_TIMESTAMP, FOREIGN KEY (user_id) REFERENCES users(id) ON DELETE CASCADE, UNIQUE(user_id, date) )"

/-- The DDL of the shadow table `diary_entries_new` (lines 183–194 of
`database.ts`): identical columns, no `UNIQUE(user_id, date)`. -/
def newDiarySql : String :=
  "CREATE TABLE diary_entries_new ( id TEXT PRIMARY KEY, user_id TEXT NOT NULL, date TEXT NOT NULL, content TEXT NOT NULL, mood TEXT, created_at TEXT NOT NULL DEFAULT CURRENT_TIMESTAMP, updated_at TEXT NOT NULL DEFAULT CURRENT_TIMESTAMP, FOREIGN KEY (user_id) REFERENCES users(id) ON DELETE CASCADE )"

/-- The shadow table's `sql` after `ALTER TABLE diary_entries_new RENAME TO
diary_entries` (SQLite rewrites the table name in the stored text). -/
def renamedDiarySql : String :=
  "CREATE TABLE diary_entries ( id TEXT PRIMARY KEY, user_id TEXT NOT NULL, date TEXT NOT NULL, content TEXT NOT NULL, mood TEXT, created_at TEXT NOT NULL DEFAULT CURRENT_TIMESTAMP, updated_at TEXT NOT NULL DEFAULT CURRENT_TIMESTAMP, FOREIGN KEY (user_id) REFERENCES users(id) ON DELETE CASCADE )"

/-- Index rows of the freshly created shadow table: the automatic index of
its `id TEXT PRIMARY KEY`. -/
def newDiaryIndexes : List IndexInfo :=
  [⟨"sqlite_autoindex_diary_entries_new_1", none⟩]

/-- Index rows of the shadow table after the rename. -/
def renamedDiaryIndexes : List IndexInfo :=
  [⟨"sqlite_autoindex_diary_entries_1", none⟩]

/-- Line 150: `tableInfo.sql.includes('UNIQUE(user_id, date)')`. -/
def hasUniqueConstraint (db : MigDb) : Bool :=
  match db.diary with
  | some t => strContains t.sql "UNIQUE(user_id, date)"
  | none => false

/-- Lines 153–159: an index whose name contains `autoindex`, or whose `sql`
contains `UNIQUE` and one of the column names. -/
def hasUniqueIndex (db : MigDb) : Bool :=
  let idxs := match db.diary with | some t => t.indexes | none => []
  idxs.any fun idx =>
    strContains idx.name "autoindex" ||
      (match idx.sql with
       | some s => strContains s "UNIQUE" && (strContains s "user_id" || strContains s "date")
       | none => false)

/-- Lines 162–166: some index row whose name starts with
`sqlite_autoindex` (and the index list is non-empty). -/
def hasAutoIndex (db : MigDb) : Bool :=
  let idxs := match db.diary with | some t => t.indexes | none => []
  !idxs.isEmpty && idxs.any fun idx => strStarts idx.name "sqlite_autoindex"

/-- Line 168: the condition that triggers the shadow-table rebuild. -/
def migrationNeeded (db : MigDb) : Bool :=
  hasUniqueConstraint db || hasUniqueIndex db || hasAutoIndex db

/-- `DROP TABLE IF EXISTS diary_entries_new`. -/
def dropNewIfExists (db : MigDb) : MigDb := { db with diaryNew := none }

/-- Line 209–210: `COALESCE(NULLIF(created_at, ''), ?)` (and the same for
`updated_at`) — an empty timestamp is replaced by the current one when rows
are copied into the shadow table. -/
def fixRow (now : String) (r : DiaryRow) : DiaryRow :=
  { r with
    created_at := if r.created_at = "" then now else r.created_at
    updated_at := if r.updated_at = "" then now else r.updated_at }

/-- The five statements inside the transaction that can fail. -/
inductive MigStep
  | createShadow
  | copyRows
  | dropOriginal
  | renameShadow
  | commitTxn
deriving DecidableEq

/-- What the migration attempt reported. -/
inductive MigOutcome
  | skipped
  | migrated
  | rolledBack
deriving DecidableEq

/-- The constraint-removal migration of `initializeDatabase`
(lines 147–249), with fault injection: `fault = some s` makes statement `s`
throw.  A fault rolls the transaction back to the state at `BEGIN` (the
pre-transaction `DROP TABLE IF EXISTS diary_entries_new` cleanup is outside
the transaction and survives), then both the inner and the outer `catch`
run their `DROP TABLE IF EXISTS diary_entries_new` cleanup; the outer
`catch` only logs, so the function always returns normally and startup
continues.  The `rows := ...` of `copyRows` lands in one state update; a
fault at that step is rolled back wholesale by the transaction, so partial
and absent copies are indistinguishable, which is exactly the atomicity
being modelled. -/
def runConstraintMigration (db : MigDb) (now : String) (fault : Option MigStep) :
    MigDb × MigOutcome :=
  if migrationNeeded db then
    let db0 := dropNewIfExists db
    if fault = some MigStep.createShadow then (dropNewIfExists db0, MigOutcome.rolledBack)
    else
      let db1 := { db0 with diaryNew := some ⟨newDiarySql, newDiaryIndexes, []⟩ }
      if fault = some MigStep.copyRows then (dropNewIfExists db0, MigOutcome.rolledBack)
      else
        let origRows := match db1.diary with | some t => t.rows | none => []
        let db2 := { db1 with
          diaryNew := db1.diaryNew.map fun (t : TableInfo) =>
            { t with rows := origRows.map (fixRow now) } }
        if fault = some MigStep.dropOriginal then (dropNewIfExists db0, MigOutcome.rolledBack)
        else
          let db3 := { db2 with diary := none }
          if fault = some MigStep.renameShadow then (dropNewIfExists db0, MigOutcome.rolledBack)
          else
            let db4 : MigDb :=
              { diary := db3.diaryNew.map fun (t : TableInfo) =>
                  ⟨renamedDiarySql, renamedDiaryIndexes, t.rows⟩
                diaryNew := none }
            if fault = some MigStep.commitTxn then (dropNewIfExists db0, MigOutcome.rolledBack)
            else (db4, MigOutcome.migrated)
  else (db, MigOutcome.skipped)

/-- Sample rows for concrete evaluation. -/
def sampleRow1 : DiaryRow :=
  ⟨"e1", "u1", "2024-01-01", "first entry", none, "2024-01-01T10:00:00Z", "2024-01-01T10:00:00Z"⟩

/-- Second sample row, with an empty `created_at` exercising the COALESCE
fallback. -/
def sampleRow2 : DiaryRow :=
  ⟨"e2", "u1", "2024-01-02", "second entry", some "happy", "", "2024-01-02T09:00:00Z"⟩

/-- A legacy database: `diary_entries` created by the old DDL with
`UNIQUE(user_id, date)`, hence two automatic indexes (primary key and the
unique constraint), holding two rows; no shadow table. -/
def legacyDb : MigDb :=
  { diary := some
      ⟨legacyDiarySql,
        [⟨"sqlite_autoindex_diary_entries_1", none⟩, ⟨"sqlite_autoindex_diary_entries_2", none⟩],
        [sampleRow1, sampleRow2]⟩
    diaryNew := none }

end JournalDb

namespace JournalSessions

/-!
Model of the session-persistence adapter: `SQLiteStore`
(`server/session-store.ts`) over the prepared statements of
`sessionQueries` (`server/database.ts`, lines 400–415).  The `sessions`
table is a list of rows; `sid` is its primary key.  A `SELECT` passes the
table through unchanged, which the state-passing result types make
explicit.
-/

/-- One row of the `sessions` table: `sid TEXT PRIMARY KEY`,
`sess TEXT NOT NULL`, `expire INTEGER NOT NULL` (epoch milliseconds). -/
structure SessionRow where
  sid : String
  sess : String
  expire : Int
deriving DecidableEq

/-- The `sessions` table. -/
abbrev SessionDb := List SessionRow

/-- `sessionQueries.get`: `SELECT sess FROM sessions WHERE sid = ? AND
expire >= ?` (first matching row, as `better-sqlite3`'s `.get`). -/
def sessionGetQuery (db : SessionDb) (sid : String) (now : Int) : Option String :=
  (db.find? fun r => r.sid == sid && decide (now ≤ r.expire)).map (·.sess)

/-- `SQLiteStore.get(sid)`: runs the `SELECT` with `now = Date.now()` and
returns the payload (the row found) or `null`; the table is untouched. -/
def storeGet (db : SessionDb) (sid : String) (now : Int) : Option String × SessionDb :=
  (sessionGetQuery db sid now, db)

/-- `sessionQueries.touch`: `UPDATE sessions SET expire = ? WHERE sid = ?`. -/
def sessionTouchQuery (db : SessionDb) (newExpire : Int) (sid : String) : SessionDb :=
  db.map fun r => if r.sid = sid then { r with expire := newExpire } else r

/-- JS `session.cookie.maxAge || 86400000`: `undefined`/`null` and `0` fall
back to one day. -/
def effMaxAge (maxAge : Option Int) : Int :=
  match maxAge with
  | some v => if v = 0 then 86400000 else v
  | none => 86400000

/-- `SQLiteStore.touch(sid, session)`: recomputes `expire = Date.now() +
maxAge` and runs the `UPDATE`; the payload argument contributes only its
cookie `maxAge`. -/
def storeTouch (db : SessionDb) (sid : String) (now : Int) (maxAge : Option Int) :
    SessionDb :=
  sessionTouchQuery db (now + effMaxAge maxAge) sid

/-- Sample sessions table for concrete evaluation. -/
def sampleSessions : SessionDb :=
  [⟨"sidA", "payloadA", 1000⟩, ⟨"sidB", "payloadB", 5000⟩]

end JournalSessions

namespace JournalCrypto

/-! Helper lemmas about the encodings and `jsSplit`. -/

theorem jsSplit_ne_nil (sep : Nat) (s : JStr) : jsSplit sep s ≠ [] := by
  cases s with
  | nil => simp [jsSplit]
  | cons c rest =>
    simp only [jsSplit]
    rcases h : jsSplit sep rest with _ | ⟨t, ts⟩
    · simp
    · by_cases hc : c = sep <;> simp [hc]

theorem jsSplit_append_of_no_sep (sep : Nat) (a rest : JStr)
    (ha : ∀ c ∈ a, c ≠ sep) :
    jsSplit sep (a ++ sep :: rest) = a :: jsSplit sep rest := by
  induction a with
  | nil =>
    simp only [List.nil_append, jsSplit]
    rcases h : jsSplit sep rest with _ | ⟨t, ts⟩
    · exact absurd h (jsSplit_ne_nil sep rest)
    · simp
  | cons x a ih =>
    have hx : x ≠ sep := ha x (by simp)
    have ha' : ∀ c ∈ a, c ≠ sep := fun c hc => ha c (by simp [hc])
    simp only [List.cons_append, jsSplit, List.append_eq, ih ha', hx, if_false]

theorem jsSplit_of_no_sep (sep : Nat) (a : JStr) (ha : ∀ c ∈ a, c ≠ sep) :
    jsSplit sep a = [a] := by
  induction a with
  | nil => simp [jsSplit]
  | cons x a ih =>
    have hx : x ≠ sep := ha x (by simp)
    have ha' : ∀ c ∈ a, c ≠ sep := fun c hc => ha c (by simp [hc])
    simp [jsSplit, ih ha', hx]

theorem hexChar_ne_colon (n : Nat) : hexChar n ≠ 58 := by
  unfold hexChar; split <;> omega

theorem bytesToHex_no_colon : ∀ bs : List Nat, ∀ c ∈ bytesToHex bs, c ≠ 58
  | [] => by simp [bytesToHex]
  | b :: bs => by
    simp only [bytesToHex, List.mem_cons]
    rintro c (rfl | rfl | hc)
    · exact hexChar_ne_colon _
    · exact hexChar_ne_colon _
    · exact bytesToHex_no_colon bs c hc

theorem hexVal_hexChar : ∀ n, n < 16 → hexVal (hexChar n) = some n := by decide

theorem bufferFromHex_bytesToHex :
    ∀ bs : List Nat, (∀ b ∈ bs, b < 256) → bufferFromHex (bytesToHex bs) = bs
  | [] => fun _ => rfl
  | b :: bs => fun h => by
    have hb : b < 256 := h b (by simp)
    have h1 : b / 16 < 16 := by omega
    have h2 : b % 16 < 16 := by omega
    simp only [bytesToHex, bufferFromHex, hexVal_hexChar _ h1, hexVal_hexChar _ h2]
    have : b / 16 * 16 + b % 16 = b := by omega
    rw [this, bufferFromHex_bytesToHex bs (fun x hx => h x (by simp [hx]))]

theorem b64Char_ne_colon (n : Nat) : b64Char n ≠ 58 := by
  unfold b64Char; split_ifs <;> omega

theorem b64Char_ne_pad (n : Nat) : b64Char n ≠ 61 := by
  unfold b64Char; split_ifs <;> omega

theorem b64Val_b64Char : ∀ n, n < 64 → b64Val (b64Char n) = some n := by decide

theorem encodeB64_no_colon : ∀ bs : List Nat, ∀ c ∈ encodeB64 bs, c ≠ 58
  | [] => by simp [encodeB64]
  | [b1] => by
    simp only [encodeB64, List.mem_cons, List.not_mem_nil, or_false]
    rintro c (rfl | rfl | rfl | rfl) <;> first | exact b64Char_ne_colon _ | omega
  | [b1, b2] => by
    simp only [encodeB64, List.mem_cons, List.not_mem_nil, or_false]
    rintro c (rfl | rfl | rfl | rfl) <;> first | exact b64Char_ne_colon _ | omega
  | b1 :: b2 :: b3 :: rest => by
    simp only [encodeB64, List.mem_cons]
    rintro c (rfl | rfl | rfl | rfl | hc)
    · exact b64Char_ne_colon _
    · exact b64Char_ne_colon _
    · exact b64Char_ne_colon _
    · exact b64Char_ne_colon _
    · exact encodeB64_no_colon rest c hc

theorem decodeB64_encodeB64 :
    ∀ bs : List Nat, (∀ b ∈ bs, b < 256) → decodeB64 (encodeB64 bs) = bs
  | [] => fun _ => rfl
  | [b1] => fun h => by
    have hb1 : b1 < 256 := h b1 (by simp)
    have e1 : b1 / 4 < 64 := by omega
    have e2 : b1 % 4 * 16 < 64 := by omega
    simp only [encodeB64, decodeB64, b64Val_b64Char _ e1, b64Val_b64Char _ e2]
    simp
    omega
  | [b1, b2] => fun h => by
    have hb1 : b1 < 256 := h b1 (by simp)
    have hb2 : b2 < 256 := h b2 (by simp)
    have e1 : b1 / 4 < 64 := by omega
    have e2 : b1 % 4 * 16 + b2 / 16 < 64 := by omega
    have e3 : b2 % 16 * 4 < 64 := by omega
    simp only [encodeB64, decodeB64, b64Val_b64Char _ e1, b64Val_b64Char _ e2,
      b64Val_b64Char _ e3, if_neg (b64Char_ne_pad _)]
    simp
    omega
  | b1 :: b2 :: b3 :: rest => fun h => by
    have hb1 : b1 < 256 := h b1 (by simp)
    have hb2 : b2 < 256 := h b2 (by simp)
    have hb3 : b3 < 256 := h b3 (by simp)
    have e1 : b1 / 4 < 64 := by omega
    have e2 : b1 % 4 * 16 + b2 / 16 < 64 := by omega
    have e3 : b2 % 16 * 4 + b3 / 64 < 64 := by omega
    have e4 : b3 % 64 < 64 := by omega
    simp only [encodeB64, decodeB64, b64Val_b64Char _ e1, b64Val_b64Char _ e2,
      b64Val_b64Char _ e3, b64Val_b64Char _ e4,
      if_neg (b64Char_ne_pad (b2 % 16 * 4 + b3 / 64)), if_neg (b64Char_ne_pad (b3 % 64))]
    have r1 : b1 / 4 * 4 + (b1 % 4 * 16 + b2 / 16) / 16 = b1 := by omega
    have r2 : (b1 % 4 * 16 + b2 / 16) % 16 * 16 + (b2 % 16 * 4 + b3 / 64) / 4 = b2 := by omega
    have r3 : (b2 % 16 * 4 + b3 / 64) % 4 * 64 + b3 % 64 = b3 := by omega
    rw [r1, r2, r3, decodeB64_encodeB64 rest (fun x hx => h x (by simp [hx]))]

theorem hasPrefixB_append (a b : JStr) : hasPrefixB a (a ++ b) = true := by
  induction a with
  | nil => rfl
  | cons x a ih => simp [hasPrefixB, ih]

theorem toyAEAD_correct : toyAEAD.Correct := by
  intro k iv m
  simp [toyAEAD]

/-- The at-rest envelope round-trips: splitting the three hex tokens and
deciphering recovers the plaintext. -/
theorem decrypt_encrypt (A : AEAD) (kdf : JStr → JStr → List Nat)
    (passphrase text : JStr) (iv : List Nat)
    (hA : A.Correct)
    (hiv : ∀ b ∈ iv, b < 256)
    (hc : ∀ b ∈ (A.enc (getDerivedKey kdf passphrase) iv text).1, b < 256)
    (ht : ∀ b ∈ (A.enc (getDerivedKey kdf passphrase) iv text).2, b < 256) :
    decrypt A kdf passphrase (encrypt A kdf passphrase iv text) = Except.ok text := by
  by_cases htext : text = []
  · simp [htext, encrypt, decrypt]
  · have henc : encrypt A kdf passphrase iv text =
        bytesToHex iv
          ++ 58 :: (bytesToHex (A.enc (getDerivedKey kdf passphrase) iv text).2
          ++ 58 :: bytesToHex (A.enc (getDerivedKey kdf passphrase) iv text).1) := by
      simp [encrypt, encryptWithKey, htext]
    have hne : encrypt A kdf passphrase iv text ≠ [] := by
      rw [henc]; cases bytesToHex iv <;> simp
    rw [decrypt, if_neg hne, henc]
    have hsplit : jsSplit 58
        (bytesToHex iv
          ++ 58 :: (bytesToHex (A.enc (getDerivedKey kdf passphrase) iv text).2
          ++ 58 :: bytesToHex (A.enc (getDerivedKey kdf passphrase) iv text).1)) =
        [bytesToHex iv,
         bytesToHex (A.enc (getDerivedKey kdf passphrase) iv text).2,
         bytesToHex (A.enc (getDerivedKey kdf passphrase) iv text).1] := by
      rw [jsSplit_append_of_no_sep 58 _ _ (bytesToHex_no_colon iv),
        jsSplit_append_of_no_sep 58 _ _ (bytesToHex_no_colon _),
        jsSplit_of_no_sep 58 _ (bytesToHex_no_colon _)]
    simp only [decryptWithKey, hsplit]
    rw [bufferFromHex_bytesToHex iv hiv, bufferFromHex_bytesToHex _ ht,
      bufferFromHex_bytesToHex _ hc, hA (getDerivedKey kdf passphrase) iv text]

/-- The export envelope round-trips: the six colon-separated tokens are
recovered, the salt travels with the ciphertext, and the re-derived key
deciphers the document. -/
theorem decryptCSV_encryptCSV (A : AEAD) (kdf : JStr → JStr → List Nat)
    (csvContent password : JStr) (salt iv : List Nat)
    (hA : A.Correct)
    (hsalt : ∀ b ∈ salt, b < 256)
    (hiv : ∀ b ∈ iv, b < 256)
    (hc : ∀ b ∈ (A.enc (kdf password salt) iv csvContent).1, b < 256)
    (ht : ∀ b ∈ (A.enc (kdf password salt) iv csvContent).2, b < 256) :
    decryptCSV A kdf (encryptCSV A kdf csvContent password salt iv) password
      = Except.ok csvContent := by
  have henc : encryptCSV A kdf csvContent password salt iv =
      jstr "ENCRYPTED" ++ 58 :: (jstr "aes-256-gcm"
        ++ 58 :: (encodeB64 salt ++ 58 :: (encodeB64 iv
        ++ 58 :: (encodeB64 (A.enc (kdf password salt) iv csvContent).2
        ++ 58 :: encodeB64 (A.enc (kdf password salt) iv csvContent).1)))) := by
    have hhead : jstr "ENCRYPTED:aes-256-gcm:" =
        jstr "ENCRYPTED" ++ 58 :: (jstr "aes-256-gcm" ++ [58]) := by decide
    rw [encryptCSV, hhead]
    simp
  have hprefix : hasPrefixB (jstr "ENCRYPTED:")
      (encryptCSV A kdf csvContent password salt iv) = true := by
    have hsplit2 : encryptCSV A kdf csvContent password salt iv =
        jstr "ENCRYPTED:" ++
          (jstr "aes-256-gcm"
            ++ 58 :: (encodeB64 salt ++ 58 :: (encodeB64 iv
            ++ 58 :: (encodeB64 (A.enc (kdf password salt) iv csvContent).2
            ++ 58 :: encodeB64 (A.enc (kdf password salt) iv csvContent).1)))) := by
      rw [henc]
      have : jstr "ENCRYPTED:" = jstr "ENCRYPTED" ++ [58] := by decide
      rw [this]; simp
    rw [hsplit2]
    exact hasPrefixB_append _ _
  have hno1 : ∀ c ∈ jstr "ENCRYPTED", c ≠ 58 := by decide
  have hno2 : ∀ c ∈ jstr "aes-256-gcm", c ≠ 58 := by decide
  have hsplit : jsSplit 58 (encryptCSV A kdf csvContent password salt iv) =
      [jstr "ENCRYPTED", jstr "aes-256-gcm", encodeB64 salt, encodeB64 iv,
       encodeB64 (A.enc (kdf password salt) iv csvContent).2,
       encodeB64 (A.enc (kdf password salt) iv csvContent).1] := by
    rw [henc,
      jsSplit_append_of_no_sep 58 _ _ hno1,
      jsSplit_append_of_no_sep 58 _ _ hno2,
      jsSplit_append_of_no_sep 58 _ _ (encodeB64_no_colon salt),
      jsSplit_append_of_no_sep 58 _ _ (encodeB64_no_colon iv),
      jsSplit_append_of_no_sep 58 _ _ (encodeB64_no_colon _),
      jsSplit_of_no_sep 58 _ (encodeB64_no_colon _)]
  rw [decryptCSV, decryptCSVBody, hprefix]
  simp only [Bool.true_eq_false, if_false, hsplit]
  rw [if_neg (by simp)]
  simp only [List.getD_cons_succ, List.getD_cons_zero]
  rw [decodeB64_encodeB64 salt hsalt, decodeB64_encodeB64 iv hiv,
    decodeB64_encodeB64 _ ht, decodeB64_encodeB64 _ hc,
    hA (kdf password salt) iv csvContent]

/-- C1: for every plaintext, decrypting the result of encrypting it yields
the plaintext back — for the at-rest codec under the configured master
passphrase, and for the export codec under any password (fresh salt and IV
drawn per call).  Stated for every cipher satisfying the authenticated
encryption contract `AEAD.Correct`, with the byte buffers involved being
genuine bytes (`< 256`). -/
theorem roundtrip_at_rest_and_export
    (A : AEAD) (kdf : JStr → JStr → List Nat)
    (passphrase text : JStr) (iv : List Nat)
    (csvContent password : JStr) (salt iv2 : List Nat)
    (hA : A.Correct)
    (hiv : ∀ b ∈ iv, b < 256)
    (hc : ∀ b ∈ (A.enc (getDerivedKey kdf passphrase) iv text).1, b < 256)
    (ht : ∀ b ∈ (A.enc (getDerivedKey kdf passphrase) iv text).2, b < 256)
    (hsalt : ∀ b ∈ salt, b < 256)
    (hiv2 : ∀ b ∈ iv2, b < 256)
    (hc2 : ∀ b ∈ (A.enc (kdf password salt) iv2 csvContent).1, b < 256)
    (ht2 : ∀ b ∈ (A.enc (kdf password salt) iv2 csvContent).2, b < 256) :
    decrypt A kdf passphrase (encrypt A kdf passphrase iv text) = Except.ok text
    ∧ decryptCSV A kdf (encryptCSV A kdf csvContent password salt iv2) password
        = Except.ok csvContent :=
  ⟨decrypt_encrypt A kdf passphrase text iv hA hiv hc ht,
   decryptCSV_encryptCSV A kdf csvContent password salt iv2 hA hsalt hiv2 hc2 ht2⟩

/-- Witness for C1 at concrete inputs. -/
theorem roundtrip_at_rest_and_export_witness :
    decrypt toyAEAD toyKdf (jstr "master")
        (encrypt toyAEAD toyKdf (jstr "master") [7, 200] (jstr "Hi"))
      = Except.ok (jstr "Hi")
    ∧ decryptCSV toyAEAD toyKdf
        (encryptCSV toyAEAD toyKdf (jstr "doc,data") (jstr "pw") [1, 2, 3] [4, 5])
        (jstr "pw")
      = Except.ok (jstr "doc,data") :=
  roundtrip_at_rest_and_export toyAEAD toyKdf (jstr "master") (jstr "Hi") [7, 200]
    (jstr "doc,data") (jstr "pw") [1, 2, 3] [4, 5] toyAEAD_correct
    (by decide) (by decide) (by decide) (by decide) (by decide) (by decide) (by decide)

/-- A non-empty token of lowercase hex digits — the spec's "valid
(non-empty) hexadecimal" token, matching the `/^[0-9a-f]+$/` regex. -/
def hexToken (p : JStr) : Prop := p ≠ [] ∧ ∀ c ∈ p, isLowerHexDigit c = true

/-- C7: `isEncrypted` returns true iff the value splits on `':'` into
exactly three tokens, each valid non-empty hexadecimal; every other value,
the empty string included, yields false. -/
theorem isEncrypted_iff (data : JStr) :
    isEncrypted data = true ↔
      ∃ a b c, jsSplit 58 data = [a, b, c] ∧ hexToken a ∧ hexToken b ∧ hexToken c := by
  constructor
  · intro h
    have hd : data ≠ [] := by
      intro hd; rw [hd] at h; simp [isEncrypted] at h
    rw [isEncrypted, if_neg hd] at h
    simp only [Bool.and_eq_true, beq_iff_eq, List.all_eq_true] at h
    obtain ⟨hlen, hall⟩ := h
    rcases hp : jsSplit 58 data with _ | ⟨a, _ | ⟨b, _ | ⟨c, _ | ⟨d, rest⟩⟩⟩⟩ <;>
      rw [hp] at hlen <;> simp at hlen
    rw [hp] at hall
    refine ⟨a, b, c, rfl, ?_, ?_, ?_⟩ <;>
      [have := hall a (by simp); have := hall b (by simp); have := hall c (by simp)] <;>
      simpa [hexToken, List.isEmpty_iff, Bool.and_eq_true, List.all_eq_true] using this
  · rintro ⟨a, b, c, hp, ⟨ha1, ha2⟩, ⟨hb1, hb2⟩, ⟨hc1, hc2⟩⟩
    have hd : data ≠ [] := by
      intro hd; rw [hd] at hp; simp [jsSplit] at hp
    rw [isEncrypted, if_neg hd]
    simp [hp, List.isEmpty_iff, ha1, hb1, hc1, List.all_eq_true]
    exact ⟨ha2, hb2, hc2⟩

/-- Witness for C7 at concrete inputs, via the theorem itself. -/
theorem isEncrypted_iff_witness :
    ∃ a b c, jsSplit 58 (jstr "aa:bb:cc") = [a, b, c]
      ∧ hexToken a ∧ hexToken b ∧ hexToken c :=
  (isEncrypted_iff (jstr "aa:bb:cc")).mp (by decide)

/-- C4: `safeDecrypt` returns its input unchanged whenever the input is not
a structurally valid envelope or decryption fails, and returns the
decrypted plaintext exactly when the input is a valid envelope and
decryption succeeds.  It is a total function (the `try`/`catch` of the
source is the `.error` fallback arm), so it never throws. -/
theorem safeDecrypt_spec (A : AEAD) (kdf : JStr → JStr → List Nat)
    (passphrase X : JStr) :
    (isEncrypted X = false → safeDecrypt A kdf passphrase X = X)
    ∧ (∀ e, decrypt A kdf passphrase X = Except.error e →
        safeDecrypt A kdf passphrase X = X)
    ∧ (∀ m, isEncrypted X = true → decrypt A kdf passphrase X = Except.ok m →
        safeDecrypt A kdf passphrase X = m) := by
  refine ⟨?_, ?_, ?_⟩
  · intro h
    by_cases hX : X = []
    · subst hX; simp [safeDecrypt]
    · simp [safeDecrypt, hX, h]
  · intro e he
    by_cases hX : X = []
    · subst hX; simp [safeDecrypt]
    · by_cases hE : isEncrypted X
      · simp [safeDecrypt, hX, hE, he]
      · simp [safeDecrypt, hX, hE]
  · intro m hE hok
    have hX : X ≠ [] := by
      intro h; rw [h] at hE; simp [isEncrypted] at hE
    simp [safeDecrypt, hX, hE, hok]

/-- Witness for C4 at concrete inputs: legacy plaintext is passed through,
a well-formed envelope that fails authentication is passed through, and a
genuine envelope decrypts. -/
theorem safeDecrypt_spec_witness :
    safeDecrypt toyAEAD toyKdf (jstr "master") (jstr "legacy note") = jstr "legacy note"
    ∧ safeDecrypt toyAEAD toyKdf (jstr "master") (jstr "aa:bb:cc") = jstr "aa:bb:cc" :=
  ⟨(safeDecrypt_spec toyAEAD toyKdf (jstr "master") (jstr "legacy note")).1 (by decide),
   (safeDecrypt_spec toyAEAD toyKdf (jstr "master") (jstr "aa:bb:cc")).2.1 _ rfl⟩

/-- C10: the at-rest codec maps the empty string to the empty string in
both directions — `encrypt` returns `''` without producing an envelope
(`isEncrypted` rejects the result), and `decrypt` returns `''` without
parsing. -/
theorem empty_passthrough (A : AEAD) (kdf : JStr → JStr → List Nat)
    (passphrase : JStr) (iv : List Nat) :
    encrypt A kdf passphrase iv [] = []
    ∧ decrypt A kdf passphrase [] = Except.ok []
    ∧ isEncrypted (encrypt A kdf passphrase iv []) = false :=
  ⟨rfl, rfl, rfl⟩

/-- Witness for C10 at concrete inputs. -/
theorem empty_passthrough_witness :
    encrypt toyAEAD toyKdf (jstr "master") [7] [] = []
    ∧ decrypt toyAEAD toyKdf (jstr "master") [] = Except.ok []
    ∧ isEncrypted (encrypt toyAEAD toyKdf (jstr "master") [7] []) = false :=
  empty_passthrough toyAEAD toyKdf (jstr "master") [7]

/-- C5 counterexample: the caller cannot distinguish the failure kinds of
`decryptCSV`.  A structurally malformed input (no `ENCRYPTED:` prefix) and
a well-formed envelope decrypted with the wrong password both surface as
the identical error value, because the format errors are thrown inside the
same `try` whose `catch` rethrows the one generic message. -/
theorem decryptCSV_failures_indistinguishable :
    decryptCSV toyAEAD toyKdf (jstr "hello") (jstr "pw")
      = Except.error "Failed to decrypt CSV - incorrect password or corrupted file"
    ∧ decryptCSV toyAEAD toyKdf
        (encryptCSV toyAEAD toyKdf (jstr "doc") (jstr "pw") [1, 2] [3])
        (jstr "qx")
      = Except.error "Failed to decrypt CSV - incorrect password or corrupted file" :=
  ⟨rfl, rfl⟩

/-- C5 amended: inside the `try` body the two failure kinds are distinct
(`Content is not encrypted` / `Invalid encrypted format` are thrown by the
shape checks before decryption is attempted), but the surrounding `catch`
rethrows every failure — format failures included — as the single generic
message, so the two kinds are not distinguishable to the caller. -/
theorem decryptCSV_error_taxonomy (A : AEAD) (kdf : JStr → JStr → List Nat)
    (content password : JStr) :
    (hasPrefixB (jstr "ENCRYPTED:") content = false →
      decryptCSVBody A kdf content password = Except.error "Content is not encrypted")
    ∧ (hasPrefixB (jstr "ENCRYPTED:") content = true →
        ((jsSplit 58 content).length ≠ 6
          ∨ (jsSplit 58 content).getD 1 [] ≠ jstr "aes-256-gcm") →
        decryptCSVBody A kdf content password = Except.error "Invalid encrypted format")
    ∧ (∀ e, decryptCSV A kdf content password = Except.error e →
        e = "Failed to decrypt CSV - incorrect password or corrupted file") := by
  refine ⟨?_, ?_, ?_⟩
  · intro h
    simp [decryptCSVBody, h]
  · intro h hbad
    rw [decryptCSVBody, h]
    simp only [Bool.true_eq_false, if_false]
    rw [if_pos hbad]
  · intro e he
    rw [decryptCSV] at he
    rcases hb : decryptCSVBody A kdf content password with err | m <;> rw [hb] at he
    · cases he; rfl
    · cases he

/-- Witness for C5's amended statement at concrete inputs. -/
theorem decryptCSV_error_taxonomy_witness :
    decryptCSVBody toyAEAD toyKdf (jstr "hello") (jstr "pw")
      = Except.error "Content is not encrypted"
    ∧ decryptCSVBody toyAEAD toyKdf (jstr "ENCRYPTED:zzz") (jstr "pw")
      = Except.error "Invalid encrypted format" :=
  ⟨(decryptCSV_error_taxonomy toyAEAD toyKdf (jstr "hello") (jstr "pw")).1 (by decide),
   (decryptCSV_error_taxonomy toyAEAD toyKdf (jstr "ENCRYPTED:zzz") (jstr "pw")).2.1
     (by decide) (by decide)⟩

/-- C8 counterexample: the derived key is not computed once and cached —
two `encrypt` calls in the same process perform two `scrypt` invocations,
not one (`getDerivedKey` runs `scryptAsync` afresh on every call). -/
theorem kdf_not_cached :
    (encryptTr toyAEAD toyKdf (jstr "master") [1] (jstr "a")).2
      + (encryptTr toyAEAD toyKdf (jstr "master") [2] (jstr "b")).2 = 2
    ∧ ¬((encryptTr toyAEAD toyKdf (jstr "master") [1] (jstr "a")).2
      + (encryptTr toyAEAD toyKdf (jstr "master") [2] (jstr "b")).2 = 1) := by
  constructor <;> decide

/-- C8 amended: the at-rest codec derives its key deterministically from
the configured passphrase and the fixed salt `'journal-app-salt'`, so every
encrypt and decrypt call uses the identical derived key; but the key is
re-derived — exactly one fresh KDF invocation — on every call with
non-empty input, rather than being computed once and cached for the
process lifetime. -/
theorem derived_key_per_call (A : AEAD) (kdf : JStr → JStr → List Nat)
    (passphrase data : JStr) (iv : List Nat) (text : JStr) :
    getDerivedKey kdf passphrase = kdf passphrase journalAppSalt
    ∧ (text ≠ [] →
        encryptTr A kdf passphrase iv text = (encrypt A kdf passphrase iv text, 1))
    ∧ (data ≠ [] →
        decryptTr A kdf passphrase data = (decrypt A kdf passphrase data, 1)) := by
  refine ⟨rfl, ?_, ?_⟩ <;> intro h <;>
    simp [encryptTr, decryptTr, encrypt, decrypt, getDerivedKeyTr, getDerivedKey, h]

/-- Witness for C8's amended statement at concrete inputs. -/
theorem derived_key_per_call_witness :
    getDerivedKey toyKdf (jstr "master") = toyKdf (jstr "master") journalAppSalt
    ∧ encryptTr toyAEAD toyKdf (jstr "master") [1] (jstr "a")
      = (encrypt toyAEAD toyKdf (jstr "master") [1] (jstr "a"), 1)
    ∧ decryptTr toyAEAD toyKdf (jstr "master") (jstr "aa:bb:cc")
      = (decrypt toyAEAD toyKdf (jstr "master") (jstr "aa:bb:cc"), 1) :=
  ⟨(derived_key_per_call toyAEAD toyKdf (jstr "master") (jstr "aa:bb:cc") [1] (jstr "a")).1,
   (derived_key_per_call toyAEAD toyKdf (jstr "master") (jstr "aa:bb:cc") [1] (jstr "a")).2.1
     (by decide),
   (derived_key_per_call toyAEAD toyKdf (jstr "master") (jstr "aa:bb:cc") [1] (jstr "a")).2.2
     (by decide)⟩

end JournalCrypto

namespace JournalDb

/-- C2: whichever statement inside the transactional shadow-table rebuild
fails, the transaction is rolled back, the orphaned shadow table is
deleted, and the original `diary_entries` table — schema, indexes and every
row — is exactly what it was before the attempt.  The run reports
`rolledBack` rather than raising: the outer `catch` only logs, so startup
continues (the model function is total). -/
theorem migration_fault_preserves_original (db : MigDb) (now : String) (s : MigStep)
    (hneed : migrationNeeded db = true) :
    (runConstraintMigration db now (some s)).1.diary = db.diary
    ∧ (runConstraintMigration db now (some s)).1.diaryNew = none
    ∧ (runConstraintMigration db now (some s)).2 = MigOutcome.rolledBack := by
  cases s <;> simp [runConstraintMigration, hneed, dropNewIfExists]

/-- Witness for C2: fault injected into the row-copy step over the legacy
database leaves the legacy table untouched. -/
theorem migration_fault_preserves_original_witness :
    (runConstraintMigration legacyDb "2024-02-02T00:00:00Z" (some MigStep.copyRows)).1.diary
      = legacyDb.diary
    ∧ (runConstraintMigration legacyDb "2024-02-02T00:00:00Z" (some MigStep.copyRows)).1.diaryNew
      = none
    ∧ (runConstraintMigration legacyDb "2024-02-02T00:00:00Z" (some MigStep.copyRows)).2
      = MigOutcome.rolledBack :=
  migration_fault_preserves_original legacyDb "2024-02-02T00:00:00Z" MigStep.copyRows
    (by decide)

/-- C3, evaluated at the failing input: after a first successful run of the
constraint-removal migration, the second run is not a no-op — the rebuilt
table's `id TEXT PRIMARY KEY` keeps an automatic
`sqlite_autoindex_diary_entries_1` index in `sqlite_master`, the detection's
`autoindex` checks match it, and the shadow-table rebuild runs again
(`migrated`, not `skipped`).  The benign parts of the claim do hold: the
second run leaves the state — row count included — identical and no shadow
table behind. -/
theorem migration_second_run_rebuilds :
    (runConstraintMigration legacyDb "T1" none).2 = MigOutcome.migrated
    ∧ (runConstraintMigration (runConstraintMigration legacyDb "T1" none).1 "T2" none).2
      = MigOutcome.migrated
    ∧ ¬((runConstraintMigration (runConstraintMigration legacyDb "T1" none).1 "T2" none).2
      = MigOutcome.skipped)
    ∧ (runConstraintMigration (runConstraintMigration legacyDb "T1" none).1 "T2" none).1
      = (runConstraintMigration legacyDb "T1" none).1
    ∧ ((runConstraintMigration legacyDb "T1" none).1.diary.map fun t => t.rows.length)
      = some 2
    ∧ (runConstraintMigration (runConstraintMigration legacyDb "T1" none).1 "T2" none).1.diaryNew
      = none := by
  refine ⟨by decide, by decide, by decide, by decide, by decide, by decide⟩

end JournalDb

namespace JournalSessions

/-- C6: `get` yields a payload only from a row with the requested `sid`
whose `expire` is at or after `now`; if every row with that `sid` is
expired (or none exists) it reports absence, and the table itself is left
unchanged — the expired row is not deleted. -/
theorem get_expiry_semantics (db : SessionDb) (sid : String) (now : Int) :
    (∀ p, (storeGet db sid now).1 = some p →
      ∃ r, r ∈ db ∧ r.sid = sid ∧ now ≤ r.expire ∧ r.sess = p)
    ∧ ((∀ r ∈ db, r.sid = sid → r.expire < now) → (storeGet db sid now).1 = none)
    ∧ (storeGet db sid now).2 = db := by
  refine ⟨?_, ?_, rfl⟩
  · intro p hp
    simp only [storeGet, sessionGetQuery, Option.map_eq_some'] at hp
    obtain ⟨r, hr, hsess⟩ := hp
    have hmem := List.mem_of_find?_eq_some hr
    have hpred := List.find?_some hr
    simp only [Bool.and_eq_true, beq_iff_eq, decide_eq_true_eq] at hpred
    exact ⟨r, hmem, hpred.1, hpred.2, hsess⟩
  · intro hall
    simp only [storeGet, sessionGetQuery]
    rw [List.find?_eq_none.mpr]
    · rfl
    · intro r hr
      simp only [Bool.and_eq_true, beq_iff_eq, decide_eq_true_eq, not_and]
      intro hsid
      have := hall r hr hsid
      omega

/-- Witness for C6: `sidA` expired at `now = 1500` is reported absent while
its row is still present and the table is unchanged. -/
theorem get_expiry_semantics_witness :
    (storeGet sampleSessions "sidA" 1500).1 = none
    ∧ (storeGet sampleSessions "sidA" 1500).2 = sampleSessions
    ∧ (⟨"sidA", "payloadA", 1000⟩ : SessionRow) ∈ sampleSessions :=
  ⟨(get_expiry_semantics sampleSessions "sidA" 1500).2.1 (by decide),
   (get_expiry_semantics sampleSessions "sidA" 1500).2.2,
   by decide⟩

/-- C9: `touch` updates only the `expire` column of the rows whose `sid`
matches, setting it to `now + ttl`; `sid` and payload of every row are
preserved, rows with a different `sid` are untouched, the table length is
unchanged, and when no row has the `sid` the table is exactly as before
(no row is created). -/
theorem touch_frame (db : SessionDb) (sid : String) (now ttl : Int)
    (httl : ttl ≠ 0) :
    (storeTouch db sid now (some ttl)).length = db.length
    ∧ (∀ i (h : i < db.length) (h' : i < (storeTouch db sid now (some ttl)).length),
        ((storeTouch db sid now (some ttl)).get ⟨i, h'⟩).sid = (db.get ⟨i, h⟩).sid
        ∧ ((storeTouch db sid now (some ttl)).get ⟨i, h'⟩).sess = (db.get ⟨i, h⟩).sess)
    ∧ (∀ i (h : i < db.length) (h' : i < (storeTouch db sid now (some ttl)).length),
        (db.get ⟨i, h⟩).sid = sid →
        ((storeTouch db sid now (some ttl)).get ⟨i, h'⟩).expire = now + ttl)
    ∧ (∀ i (h : i < db.length) (h' : i < (storeTouch db sid now (some ttl)).length),
        (db.get ⟨i, h⟩).sid ≠ sid →
        (storeTouch db sid now (some ttl)).get ⟨i, h'⟩ = db.get ⟨i, h⟩)
    ∧ ((∀ r ∈ db, r.sid ≠ sid) → storeTouch db sid now (some ttl) = db) := by
  have heff : effMaxAge (some ttl) = ttl := by simp [effMaxAge, httl]
  refine ⟨?_, ?_, ?_, ?_, ?_⟩
  · simp [storeTouch, sessionTouchQuery]
  · intro i h h'
    simp only [storeTouch, sessionTouchQuery, heff, List.get_eq_getElem,
      List.getElem_map]
    split <;> simp
  · intro i h h' hsid
    simp only [storeTouch, sessionTouchQuery, heff, List.get_eq_getElem,
      List.getElem_map]
    rw [if_pos (by simpa using hsid)]
  · intro i h h' hsid
    simp only [storeTouch, sessionTouchQuery, heff, List.get_eq_getElem,
      List.getElem_map]
    rw [if_neg (by simpa using hsid)]
  · intro hnone
    simp only [storeTouch, sessionTouchQuery, heff]
    have : ∀ r ∈ db,
        (if r.sid = sid then { r with expire := now + ttl } else r) = id r := by
      intro r hr
      simp [hnone r hr]
    rw [List.map_congr_left this, List.map_id]

/-- Witness for C9: touching an existing session extends only its expiry;
touching a non-existent `sid` changes nothing. -/
theorem touch_frame_witness :
    (storeTouch sampleSessions "sidA" 2000 (some 500)).length = sampleSessions.length
    ∧ storeTouch sampleSessions "nosuch" 2000 (some 500) = sampleSessions :=
  ⟨(touch_frame sampleSessions "sidA" 2000 500 (by decide)).1,
   (touch_frame sampleSessions "nosuch" 2000 500 (by decide)).2.2.2.2 (by decide)⟩

end JournalSessions
